import Mathlib

/-!
Verification development for the databricks-integration action
(src/databricks-integration/action/app.py).

The Python source is shallowly embedded: dictionaries become structures with
Option fields (a missing key is none), fallible subscript access becomes
Except, and the handler pipeline becomes a pure function that returns the
trace of observable effects it performed together with its outcome.
-/

/-! ## Annotation data model

An annotation document carries an instances list (annotation.get with
default [] collapses a missing key to the empty list).  Each instance may
carry an element_path key (an ordered list of identifiers, where a single
entry may itself be null) and an attributes key (a list of records that may
carry a name key).  A none field models the key being absent.
-/

structure SAAttribute where
  name : Option String
deriving DecidableEq

structure SAInstance where
  element_path : Option (List (Option String))
  attributes : Option (List SAAttribute)
deriving DecidableEq

structure Annotation where
  instances : List SAInstance
deriving DecidableEq

/-! ## find_componets_values (app.py lines 72-84)

The inner loop over instances is scan_instances: for each instance that has
an element_path key, the code reads element_path[0] (an IndexError when the
path is empty), and when that first segment equals the requested component
id it reads instance[attributes][0][name] (KeyError or IndexError when
missing) and overwrites the accumulated value.  The str cast applied to a
string value is the identity.  The values dict is modeled as an association
list with Python dict insert-or-update semantics (dict_set), and errors
raised by the Python subscripts are modeled with Except.
-/

def scan_instances (component_id : String) : List SAInstance → Option String → Except String (Option String)
  | [], acc => .ok acc
  | inst :: rest, acc =>
    match inst.element_path with
    | none => scan_instances component_id rest acc
    | some path =>
      match path with
      | [] => .error "IndexError: element_path is empty"
      | id_in_path :: _ =>
        if id_in_path = some component_id then
          match inst.attributes with
          | none => .error "KeyError: attributes"
          | some [] => .error "IndexError: attributes is empty"
          | some (attr :: _) =>
            match attr.name with
            | none => .error "KeyError: name"
            | some value => scan_instances component_id rest (some value)
        else scan_instances component_id rest acc

def dict_get : List (String × String) → String → Option String
  | [], _ => none
  | (k, v) :: rest, key => if k = key then some v else dict_get rest key

def dict_set : List (String × String) → String → String → List (String × String)
  | [], key, value => [(key, value)]
  | (k, v) :: rest, key, value =>
    if k = key then (key, value) :: rest else (k, v) :: dict_set rest key value

def find_go (ann0 : Annotation) : List String → List (String × String) → Except String (List (String × String))
  | [], values => .ok values
  | component_id :: rest, values =>
    match scan_instances component_id ann0.instances (dict_get values component_id) with
    | .error e => .error e
    | .ok none => find_go ann0 rest (dict_set values component_id "")
    | .ok (some v) => find_go ann0 rest (dict_set values component_id v)

def find_componets_values (ann0 : Annotation) (ids : List String) : Except String (List (String × String)) :=
  find_go ann0 ids []

/-! ## Specification helpers for the projection -/

/-- An instance matches a component id when it has an element_path whose
first segment is exactly that id (a null first segment never matches). -/
def matchesId (component_id : String) (inst : SAInstance) : Bool :=
  match inst.element_path with
  | some (some p :: _) => p = component_id
  | _ => false

/-- The element_path key, when present, is a nonempty list (otherwise the
scan raises an IndexError). -/
def pathOk (inst : SAInstance) : Bool :=
  match inst.element_path with
  | some [] => false
  | _ => true

/-- The first attribute exists and carries a name key. -/
def hasNamedFirstAttr (inst : SAInstance) : Bool :=
  match inst.attributes with
  | some (attr :: _) => attr.name.isSome
  | _ => false

/-- The name of the first attribute of an instance, when present. -/
def firstAttrName (inst : SAInstance) : Option String :=
  match inst.attributes with
  | some (attr :: _) => attr.name
  | _ => none

/-- The last instance of the list that matches the component id. -/
def lastMatch (component_id : String) : List SAInstance → Option SAInstance
  | [] => none
  | inst :: rest =>
    match lastMatch component_id rest with
    | some i => some i
    | none => if matchesId component_id inst then some inst else none

/-- Well-formedness needed for find_componets_values to run without raising:
every present element_path is nonempty, and every instance matching a
requested id has a first attribute with a name. -/
def wellFormedFor (ids : List String) (ann : Annotation) : Bool :=
  ann.instances.all (fun inst =>
    pathOk inst && ids.all (fun cid => !(matchesId cid inst) || hasNamedFirstAttr inst))

/-- The value that the projection assigns to a component id: the first
attribute name of the last matching instance, or the empty string. -/
def projectedValue (ann : Annotation) (cid : String) : Option String :=
  match lastMatch cid ann.instances with
  | some inst => firstAttrName inst
  | none => some ""

lemma lastMatch_cons_neg {cid : String} {inst : SAInstance} {rest : List SAInstance}
    (h : matchesId cid inst = false) :
    lastMatch cid (inst :: rest) = lastMatch cid rest := by
  cases hr : lastMatch cid rest <;> simp [lastMatch, hr, h]

lemma lastMatch_eq (cid : String) : ∀ insts : List SAInstance,
    lastMatch cid insts = (insts.filter (fun i => matchesId cid i)).getLast? := by
  intro insts
  induction insts with
  | nil => rfl
  | cons i r ih =>
    cases hm : matchesId cid i with
    | false =>
      rw [lastMatch_cons_neg hm, ih]
      simp [List.filter_cons, hm]
    | true =>
      simp only [List.filter_cons, hm, if_pos]
      cases hfr : List.filter (fun i => matchesId cid i) r with
      | nil =>
        have hr : lastMatch cid r = none := by rw [ih, hfr]; rfl
        simp [lastMatch, hr, hm]
      | cons x xs =>
        have h2 : (i :: x :: xs).getLast? = (x :: xs).getLast? := rfl
        rw [h2, ← hfr, ← ih]
        cases hr : lastMatch cid r with
        | none => rw [ih, hfr] at hr; simp at hr
        | some j => simp [lastMatch, hr]

lemma lastMatch_mem {cid : String} : ∀ {insts : List SAInstance} {i : SAInstance},
    lastMatch cid insts = some i → i ∈ insts ∧ matchesId cid i = true := by
  intro insts
  induction insts with
  | nil => intro i h; simp [lastMatch] at h
  | cons a r ih =>
    intro i h
    simp only [lastMatch] at h
    cases hr : lastMatch cid r with
    | some j =>
      rw [hr] at h
      obtain rfl : j = i := by injection h
      obtain ⟨h1, h2⟩ := ih hr
      exact ⟨List.mem_cons_of_mem _ h1, h2⟩
    | none =>
      rw [hr] at h
      by_cases hm : matchesId cid a = true
      · simp [hm] at h
        subst h
        exact ⟨List.mem_cons_self _ _, hm⟩
      · simp [hm] at h

lemma scan_instances_spec (cid : String) : ∀ (insts : List SAInstance) (acc : Option String),
    (∀ inst ∈ insts, pathOk inst = true) →
    (∀ inst ∈ insts, matchesId cid inst = true → hasNamedFirstAttr inst = true) →
    scan_instances cid insts acc =
      .ok (match lastMatch cid insts with
           | some inst => firstAttrName inst
           | none => acc) := by
  intro insts
  induction insts with
  | nil => intro acc _ _; rfl
  | cons inst rest ih =>
    intro acc hpath hattr
    have hpath_i : pathOk inst = true := hpath inst (List.mem_cons_self _ _)
    have hpath_r : ∀ j ∈ rest, pathOk j = true :=
      fun j hj => hpath j (List.mem_cons_of_mem _ hj)
    have hattr_r : ∀ j ∈ rest, matchesId cid j = true → hasNamedFirstAttr j = true :=
      fun j hj => hattr j (List.mem_cons_of_mem _ hj)
    cases hep : inst.element_path with
    | none =>
      have hm : matchesId cid inst = false := by simp [matchesId, hep]
      rw [lastMatch_cons_neg hm]
      simpa [scan_instances, hep] using ih acc hpath_r hattr_r
    | some path =>
      cases path with
      | nil => exact absurd hpath_i (by simp [pathOk, hep])
      | cons hd tl =>
        by_cases hhd : hd = some cid
        · subst hhd
          have hm : matchesId cid inst = true := by simp [matchesId, hep]
          have hnamed := hattr inst (List.mem_cons_self _ _) hm
          simp only [hasNamedFirstAttr] at hnamed
          cases hat : inst.attributes with
          | none => rw [hat] at hnamed; simp at hnamed
          | some attrs =>
            cases attrs with
            | nil => rw [hat] at hnamed; simp at hnamed
            | cons attr arest =>
              rw [hat] at hnamed
              simp only [Option.isSome_iff_exists] at hnamed
              obtain ⟨v, hv⟩ := hnamed
              have hstep : scan_instances cid (inst :: rest) acc
                  = scan_instances cid rest (some v) := by
                simp [scan_instances, hep, hat, hv]
              rw [hstep, ih (some v) hpath_r hattr_r]
              simp only [lastMatch]
              cases hr : lastMatch cid rest with
              | some j => simp
              | none =>
                simp only [hm, if_pos]
                simp [firstAttrName, hat, hv]
        · have hm : matchesId cid inst = false := by
            simp only [matchesId, hep]
            cases hd with
            | none => rfl
            | some p =>
              simp only [decide_eq_false_iff_not]
              intro hp
              exact hhd (by rw [hp])
          rw [lastMatch_cons_neg hm]
          have hstep : scan_instances cid (inst :: rest) acc
              = scan_instances cid rest acc := by
            simp [scan_instances, hep, hhd]
          rw [hstep]
          exact ih acc hpath_r hattr_r

lemma dict_get_mem : ∀ {d : List (String × String)} {k v : String},
    dict_get d k = some v → (k, v) ∈ d := by
  intro d
  induction d with
  | nil => intro k v h; simp [dict_get] at h
  | cons p rest ih =>
    intro k v h
    obtain ⟨k1, v1⟩ := p
    simp only [dict_get] at h
    by_cases hk : k1 = k
    · subst hk
      simp at h
      subst h
      exact List.mem_cons_self _ _
    · rw [if_neg hk] at h
      exact List.mem_cons_of_mem _ (ih h)

lemma dict_get_not_mem : ∀ {d : List (String × String)} {k : String},
    k ∉ d.map Prod.fst → dict_get d k = none := by
  intro d
  induction d with
  | nil => intro k _; rfl
  | cons p rest ih =>
    intro k hk
    obtain ⟨k1, v1⟩ := p
    simp only [List.map_cons, List.mem_cons] at hk
    push_neg at hk
    simp only [dict_get]
    rw [if_neg (fun h => hk.1 h.symm)]
    exact ih hk.2

lemma dict_get_set_self : ∀ (d : List (String × String)) (k v : String),
    dict_get (dict_set d k v) k = some v := by
  intro d
  induction d with
  | nil => intro k v; simp [dict_set, dict_get]
  | cons p rest ih =>
    intro k v
    obtain ⟨k1, v1⟩ := p
    by_cases hk : k1 = k
    · simp [dict_set, hk, dict_get]
    · simp only [dict_set, if_neg hk, dict_get]
      exact ih k v

lemma dict_get_set_other {k key : String} : ∀ (d : List (String × String)) (v : String),
    k ≠ key → dict_get (dict_set d key v) k = dict_get d k := by
  intro d
  induction d with
  | nil =>
    intro v hne
    simp only [dict_set, dict_get]
    rw [if_neg (fun h => hne h.symm)]
  | cons p rest ih =>
    intro v hne
    obtain ⟨k1, v1⟩ := p
    by_cases hk : k1 = key
    · subst hk
      simp only [dict_set, if_pos rfl, dict_get]
      rw [if_neg (fun h => hne h.symm), if_neg (fun h => hne h.symm)]
    · simp only [dict_set, if_neg hk, dict_get]
      by_cases hkk : k1 = k
      · rw [if_pos hkk, if_pos hkk]
      · rw [if_neg hkk, if_neg hkk]
        exact ih v hne

lemma dict_set_key_mem : ∀ {d : List (String × String)} {key v : String} {p : String × String},
    p ∈ dict_set d key v → p.1 = key ∨ p ∈ d := by
  intro d
  induction d with
  | nil =>
    intro key v p hp
    simp only [dict_set, List.mem_singleton] at hp
    subst hp
    exact Or.inl rfl
  | cons q rest ih =>
    intro key v p hp
    obtain ⟨k1, v1⟩ := q
    by_cases hk : k1 = key
    · rw [show dict_set ((k1, v1) :: rest) key v = (key, v) :: rest by simp [dict_set, hk]] at hp
      rcases List.mem_cons.mp hp with rfl | h
      · exact Or.inl rfl
      · exact Or.inr (List.mem_cons_of_mem _ h)
    · rw [show dict_set ((k1, v1) :: rest) key v = (k1, v1) :: dict_set rest key v by
        simp [dict_set, hk]] at hp
      rcases List.mem_cons.mp hp with rfl | h
      · exact Or.inr (List.mem_cons_self _ _)
      · rcases ih h with h1 | h1
        · exact Or.inl h1
        · exact Or.inr (List.mem_cons_of_mem _ h1)

lemma wellFormedFor_iff {ids : List String} {ann : Annotation} :
    wellFormedFor ids ann = true ↔
      ∀ inst ∈ ann.instances, pathOk inst = true ∧
        ∀ cid ∈ ids, matchesId cid inst = true → hasNamedFirstAttr inst = true := by
  unfold wellFormedFor
  rw [List.all_eq_true]
  constructor
  · intro h inst hinst
    have h1 := h inst hinst
    rw [Bool.and_eq_true, List.all_eq_true] at h1
    refine ⟨h1.1, ?_⟩
    intro cid hcid hm
    have h2 := h1.2 cid hcid
    rw [Bool.or_eq_true] at h2
    rcases h2 with h2 | h2
    · rw [hm] at h2; simp at h2
    · exact h2
  · intro h inst hinst
    rw [Bool.and_eq_true, List.all_eq_true]
    obtain ⟨h1, h2⟩ := h inst hinst
    refine ⟨h1, ?_⟩
    intro cid hcid
    rw [Bool.or_eq_true]
    by_cases hm : matchesId cid inst = true
    · exact Or.inr (h2 cid hcid hm)
    · exact Or.inl (by simp [hm])

lemma wellFormedFor_cons {cid : String} {rest : List String} {ann : Annotation}
    (h : wellFormedFor (cid :: rest) ann = true) : wellFormedFor rest ann = true := by
  rw [wellFormedFor_iff] at h ⊢
  intro inst hinst
  obtain ⟨h1, h2⟩ := h inst hinst
  exact ⟨h1, fun c hc => h2 c (List.mem_cons_of_mem _ hc)⟩

lemma find_go_spec (ann : Annotation) : ∀ (ids : List String) (acc : List (String × String)),
    wellFormedFor ids ann = true →
    (∀ cid ∈ ids, dict_get acc cid = none ∨ dict_get acc cid = projectedValue ann cid) →
    ∃ values, find_go ann ids acc = .ok values ∧
      (∀ cid ∈ ids, dict_get values cid = projectedValue ann cid) ∧
      (∀ k, k ∉ ids → dict_get values k = dict_get acc k) ∧
      (∀ p ∈ values, p.1 ∈ ids ∨ p ∈ acc) := by
  intro ids
  induction ids with
  | nil =>
    intro acc _ _
    exact ⟨acc, rfl, by simp, fun k _ => rfl, fun p hp => Or.inr hp⟩
  | cons cid rest ih =>
    intro acc hwf hacc
    have hwf' := wellFormedFor_iff.mp hwf
    have hpath : ∀ inst ∈ ann.instances, pathOk inst = true :=
      fun i hi => (hwf' i hi).1
    have hattr : ∀ inst ∈ ann.instances, matchesId cid inst = true → hasNamedFirstAttr inst = true :=
      fun i hi => (hwf' i hi).2 cid (List.mem_cons_self _ _)
    have hscan := scan_instances_spec cid ann.instances (dict_get acc cid) hpath hattr
    have hwfrest := wellFormedFor_cons hwf
    -- the value that gets stored for cid in this iteration
    have hstep : ∃ w, find_go ann (cid :: rest) acc = find_go ann rest (dict_set acc cid w) ∧
        some w = projectedValue ann cid := by
      cases hlm : lastMatch cid ann.instances with
      | some i =>
        rw [hlm] at hscan
        obtain ⟨hmem, hmatch⟩ := lastMatch_mem hlm
        have hnamed := hattr i hmem hmatch
        simp only [hasNamedFirstAttr] at hnamed
        cases hat : i.attributes with
        | none => rw [hat] at hnamed; simp at hnamed
        | some attrs =>
          cases attrs with
          | nil => rw [hat] at hnamed; simp at hnamed
          | cons a arest =>
            rw [hat] at hnamed
            obtain ⟨v, hv⟩ := Option.isSome_iff_exists.mp hnamed
            refine ⟨v, ?_, ?_⟩
            · simp only [find_go, hscan]
              simp [firstAttrName, hat, hv]
            · simp [projectedValue, hlm, firstAttrName, hat, hv]
      | none =>
        rw [hlm] at hscan
        have hscan' : scan_instances cid ann.instances (dict_get acc cid)
            = .ok (dict_get acc cid) := hscan
        have hpv : projectedValue ann cid = some "" := by simp [projectedValue, hlm]
        rcases hacc cid (List.mem_cons_self _ _) with hnone | hsome
        · refine ⟨"", ?_, hpv.symm⟩
          simp only [find_go]
          rw [hscan', hnone]
        · rw [hpv] at hsome
          refine ⟨"", ?_, hpv.symm⟩
          simp only [find_go]
          rw [hscan', hsome]
    obtain ⟨w, hgo, hw⟩ := hstep
    have hacc' : ∀ c ∈ rest, dict_get (dict_set acc cid w) c = none ∨
        dict_get (dict_set acc cid w) c = projectedValue ann c := by
      intro c hc
      by_cases hcc : c = cid
      · subst hcc
        right
        rw [dict_get_set_self, hw]
      · rw [dict_get_set_other _ _ hcc]
        exact hacc c (List.mem_cons_of_mem _ hc)
    obtain ⟨values, hval, hv1, hv2, hv3⟩ := ih (dict_set acc cid w) hwfrest hacc'
    refine ⟨values, by rw [hgo]; exact hval, ?_, ?_, ?_⟩
    · intro c hc
      rcases List.mem_cons.mp hc with rfl | hc'
      · by_cases hcr : c ∈ rest
        · exact hv1 c hcr
        · rw [hv2 c hcr, dict_get_set_self, hw]
      · exact hv1 c hc'
    · intro k hk
      have hk1 : k ∉ rest := fun h => hk (List.mem_cons_of_mem _ h)
      have hk2 : k ≠ cid := fun h => hk (h ▸ List.mem_cons_self _ _)
      rw [hv2 k hk1, dict_get_set_other _ _ hk2]
    · intro p hp
      rcases hv3 p hp with h | h
      · exact Or.inl (List.mem_cons_of_mem _ h)
      · rcases dict_set_key_mem h with h' | h'
        · exact Or.inl (by rw [h']; exact List.mem_cons_self _ _)
        · exact Or.inr h'

lemma find_componets_values_spec {ann : Annotation} {ids : List String}
    (hwf : wellFormedFor ids ann = true) :
    ∃ values, find_componets_values ann ids = .ok values ∧
      (∀ cid ∈ ids, dict_get values cid = projectedValue ann cid) ∧
      (∀ k, k ∉ ids → dict_get values k = none) ∧
      (∀ p ∈ values, p.1 ∈ ids) := by
  obtain ⟨values, h1, h2, h3, h4⟩ := find_go_spec ann ids [] hwf (fun cid _ => Or.inl rfl)
  exact ⟨values, h1, h2, fun k hk => by rw [h3 k hk]; rfl,
    fun p hp => (h4 p hp).resolve_right (by simp)⟩

/-! ## Claims C1 to C3: projection behavior -/

lemma find_value_of_lastMatch {ann : Annotation} {ids : List String} {cid : String}
    {li : SAInstance} (hmem : cid ∈ ids) (hwf : wellFormedFor ids ann = true)
    (hlast : (ann.instances.filter (fun i => matchesId cid i)).getLast? = some li) :
    ∃ values name, find_componets_values ann ids = .ok values ∧
      firstAttrName li = some name ∧ dict_get values cid = some name := by
  obtain ⟨values, h1, h2, _, _⟩ := find_componets_values_spec hwf
  have hlm : lastMatch cid ann.instances = some li := by rw [lastMatch_eq]; exact hlast
  obtain ⟨hmem_i, hmatch⟩ := lastMatch_mem hlm
  have hnamed := (wellFormedFor_iff.mp hwf li hmem_i).2 cid hmem hmatch
  obtain ⟨name, hname⟩ : ∃ n, firstAttrName li = some n := by
    unfold hasNamedFirstAttr at hnamed
    unfold firstAttrName
    cases hat : li.attributes with
    | none => rw [hat] at hnamed; simp at hnamed
    | some attrs =>
      cases attrs with
      | nil => rw [hat] at hnamed; simp at hnamed
      | cons a arest => rw [hat] at hnamed; exact Option.isSome_iff_exists.mp hnamed
  refine ⟨values, name, h1, hname, ?_⟩
  rw [h2 cid hmem]
  simp [projectedValue, hlm, hname]

/-- Claim C1: for every annotation document and requested component id, when
multiple instances carry an element_path whose first segment equals that id,
the projected value equals the first attribute name (a string) of the last
matching instance: the in-order scan keeps overwriting, so the last match
wins.  The well-formedness hypothesis rules out the inputs on which the
Python scan raises instead of producing any value. -/
theorem find_componets_values_last_match_wins (ann : Annotation) (ids : List String)
    (cid : String) (li : SAInstance)
    (hmem : cid ∈ ids)
    (hwf : wellFormedFor ids ann = true)
    (hmulti : 2 ≤ (ann.instances.filter (fun i => matchesId cid i)).length)
    (hlast : (ann.instances.filter (fun i => matchesId cid i)).getLast? = some li) :
    ∃ values name, find_componets_values ann ids = .ok values ∧
      firstAttrName li = some name ∧ dict_get values cid = some name :=
  find_value_of_lastMatch hmem hwf hlast

def annTwoMatches : Annotation :=
  ⟨[⟨some [some "compA"], some [⟨some "first"⟩]⟩,
    ⟨some [some "compA", some "x"], some [⟨some "second"⟩]⟩]⟩

/-- Witness for C1: with two instances matching compA, the stored value is
the first attribute name of the second (last) one. -/
theorem find_componets_values_last_match_wins_witness :
    ∃ values name, find_componets_values annTwoMatches ["compA"] = .ok values ∧
      firstAttrName ⟨some [some "compA", some "x"], some [⟨some "second"⟩]⟩ = some name ∧
      dict_get values "compA" = some name :=
  find_componets_values_last_match_wins annTwoMatches ["compA"] "compA"
    ⟨some [some "compA", some "x"], some [⟨some "second"⟩]⟩
    (by decide) (by decide) (by decide) (by decide)

/-- Claim C2: for every annotation document and requested component id, if no
instance has an element_path whose first segment equals that id, the
projected value for that id is the empty string. -/
theorem find_componets_values_no_match_empty (ann : Annotation) (ids : List String)
    (cid : String)
    (hmem : cid ∈ ids)
    (hwf : wellFormedFor ids ann = true)
    (hnone : ann.instances.filter (fun i => matchesId cid i) = []) :
    ∃ values, find_componets_values ann ids = .ok values ∧
      dict_get values cid = some "" := by
  obtain ⟨values, h1, h2, _, _⟩ := find_componets_values_spec hwf
  have hlm : lastMatch cid ann.instances = none := by rw [lastMatch_eq, hnone]; rfl
  refine ⟨values, h1, ?_⟩
  rw [h2 cid hmem]
  simp [projectedValue, hlm]

def annNoMatch : Annotation :=
  ⟨[⟨some [some "other", some "x"], some [⟨some "foo"⟩]⟩]⟩

/-- Witness for C2: the document has one instance, whose path starts with a
different id, so the requested id projects to the empty string. -/
theorem find_componets_values_no_match_empty_witness :
    ∃ values, find_componets_values annNoMatch ["compB"] = .ok values ∧
      dict_get values "compB" = some "" :=
  find_componets_values_no_match_empty annNoMatch ["compB"] "compB"
    (by decide) (by decide) (by decide)

def exampleAnn : Annotation :=
  ⟨[⟨some [some "compA", some "x"], some [⟨some "foo"⟩]⟩]⟩

/-- Claim C3: for every annotation document with exactly one instance whose
element_path starts with a requested id, the projection maps that id to that
first attribute name; and in the concrete scenario with ids compA, compB and
one annotation whose instance has path starting with compA and attributes
with first name foo, the projected row is compA maps to foo and compB maps
to the empty string. -/
theorem find_componets_values_single_match :
    (∀ (ann : Annotation) (ids : List String) (cid : String) (inst : SAInstance),
      cid ∈ ids → wellFormedFor ids ann = true →
      ann.instances.filter (fun i => matchesId cid i) = [inst] →
      ∃ values name, find_componets_values ann ids = .ok values ∧
        firstAttrName inst = some name ∧ dict_get values cid = some name) ∧
    find_componets_values exampleAnn ["compA", "compB"]
      = .ok [("compA", "foo"), ("compB", "")] := by
  constructor
  · intro ann ids cid inst hmem hwf hone
    exact find_value_of_lastMatch hmem hwf (by rw [hone]; rfl)
  · rfl

/-- Witness for C3: the general part applied to the concrete scenario. -/
theorem find_componets_values_single_match_witness :
    ∃ values name, find_componets_values exampleAnn ["compA", "compB"] = .ok values ∧
      firstAttrName ⟨some [some "compA", some "x"], some [⟨some "foo"⟩]⟩ = some name ∧
      dict_get values "compA" = some name :=
  find_componets_values_single_match.1 exampleAnn ["compA", "compB"] "compA"
    ⟨some [some "compA", some "x"], some [⟨some "foo"⟩]⟩
    (by decide) (by decide) (by decide)

/-! ## CSV model (write_csv_file, app.py lines 118-124)

write_csv_file uses csv.DictWriter with the default excel dialect:
QUOTE_MINIMAL quoting, comma delimiter, double-quote quotechar with doubling,
and CRLF line terminator (the file is opened with newline set so no
translation happens).  A field is quoted exactly when it contains a comma, a
double quote, a carriage return or a line feed; a record consisting of a
single empty field is written as a pair of quotes so that it is not read
back as a blank line.  DictWriter.writeheader writes the fieldnames
themselves as the first record; DictWriter.writerow with the default
extrasaction raise raises ValueError when the row dict holds a key not in
fieldnames, and fills fieldnames missing from the row dict with the empty
value.  Reading the file back is modeled by csvParse, a state machine with
the same dialect.  Everything is on lists of characters; strings cross the
boundary through String.data.
-/

def quoteChar : Char := Char.ofNat 34

def crChar : Char := Char.ofNat 13

def lfChar : Char := Char.ofNat 10

def isCsvSpecial (c : Char) : Bool :=
  c = ',' || c = quoteChar || c = crChar || c = lfChar

def escapeQuotes : List Char → List Char
  | [] => []
  | c :: cs =>
    if c = quoteChar then quoteChar :: quoteChar :: escapeQuotes cs
    else c :: escapeQuotes cs

def encodeField (f : List Char) : List Char :=
  if f.any isCsvSpecial then quoteChar :: (escapeQuotes f ++ [quoteChar]) else f

def encodeFields : List (List Char) → List Char
  | [] => []
  | f :: fs => encodeField f ++ (if fs.isEmpty then [] else ',' :: encodeFields fs)

def encodeRecord (fs : List (List Char)) : List Char :=
  if fs = [[]] then [quoteChar, quoteChar, crChar, lfChar]
  else encodeFields fs ++ [crChar, lfChar]

def encodeCsv (records : List (List (List Char))) : List Char :=
  (records.map encodeRecord).flatten

inductive CsvMode where
  | start
  | unquoted
  | quoted
  | quoteEnd
  | cr
deriving DecidableEq

structure CsvState where
  recs : List (List (List Char))
  cur : List (List Char)
  field : List Char
  mode : CsvMode
deriving DecidableEq

def csvCommit (recs : List (List (List Char))) (fields : List (List Char)) : CsvState :=
  ⟨recs ++ [fields], [], [], .start⟩

def csvStepStart (recs : List (List (List Char))) (cur : List (List Char)) (c : Char) : CsvState :=
  if c = quoteChar then ⟨recs, cur, [], .quoted⟩
  else if c = ',' then ⟨recs, cur ++ [[]], [], .start⟩
  else if c = crChar then
    (if cur = [] then ⟨recs, [], [], .cr⟩ else ⟨recs, cur ++ [[]], [], .cr⟩)
  else if c = lfChar then
    (if cur = [] then csvCommit recs [] else csvCommit recs (cur ++ [[]]))
  else ⟨recs, cur, [c], .unquoted⟩

def csvStep (s : CsvState) (c : Char) : CsvState :=
  match s with
  | ⟨recs, cur, _, .start⟩ => csvStepStart recs cur c
  | ⟨recs, cur, field, .unquoted⟩ =>
    if c = ',' then ⟨recs, cur ++ [field], [], .start⟩
    else if c = crChar then ⟨recs, cur ++ [field], [], .cr⟩
    else if c = lfChar then csvCommit recs (cur ++ [field])
    else ⟨recs, cur, field ++ [c], .unquoted⟩
  | ⟨recs, cur, field, .quoted⟩ =>
    if c = quoteChar then ⟨recs, cur, field, .quoteEnd⟩
    else ⟨recs, cur, field ++ [c], .quoted⟩
  | ⟨recs, cur, field, .quoteEnd⟩ =>
    if c = quoteChar then ⟨recs, cur, field ++ [quoteChar], .quoted⟩
    else if c = ',' then ⟨recs, cur ++ [field], [], .start⟩
    else if c = crChar then ⟨recs, cur ++ [field], [], .cr⟩
    else if c = lfChar then csvCommit recs (cur ++ [field])
    else ⟨recs, cur, field ++ [c], .unquoted⟩
  | ⟨recs, cur, _, .cr⟩ =>
    if c = lfChar then csvCommit recs cur
    else csvStepStart (recs ++ [cur]) [] c

def csvFinish (s : CsvState) : List (List (List Char)) :=
  match s with
  | ⟨recs, cur, _, .start⟩ => if cur = [] then recs else recs ++ [cur ++ [[]]]
  | ⟨recs, cur, field, .unquoted⟩ => recs ++ [cur ++ [field]]
  | ⟨recs, cur, field, .quoted⟩ => recs ++ [cur ++ [field]]
  | ⟨recs, cur, field, .quoteEnd⟩ => recs ++ [cur ++ [field]]
  | ⟨recs, cur, _, .cr⟩ => recs ++ [cur]

def csvParse (cs : List Char) : List (List (List Char)) :=
  csvFinish (cs.foldl csvStep ⟨[], [], [], .start⟩)

/-! ## CSV round trip: csvParse is a left inverse of encodeCsv -/

lemma comma_ne_quote : (',' : Char) ≠ quoteChar := by decide

lemma comma_ne_cr : (',' : Char) ≠ crChar := by decide

lemma comma_ne_lf : (',' : Char) ≠ lfChar := by decide

lemma cr_ne_quote : crChar ≠ quoteChar := by decide

lemma cr_ne_comma : crChar ≠ ',' := by decide

lemma lf_ne_quote : lfChar ≠ quoteChar := by decide

lemma lf_ne_comma : lfChar ≠ ',' := by decide

lemma lf_ne_cr : lfChar ≠ crChar := by decide

lemma not_special_facts {c : Char} (h : isCsvSpecial c = false) :
    ¬c = ',' ∧ ¬c = quoteChar ∧ ¬c = crChar ∧ ¬c = lfChar := by
  unfold isCsvSpecial at h
  simp at h
  tauto

lemma csv_quoted_run : ∀ (f : List Char) (recs : List (List (List Char)))
    (cur : List (List Char)) (fld : List Char) (rest : List Char),
    List.foldl csvStep ⟨recs, cur, fld, .quoted⟩ (escapeQuotes f ++ quoteChar :: rest)
      = List.foldl csvStep ⟨recs, cur, fld ++ f, .quoteEnd⟩ rest := by
  intro f
  induction f with
  | nil =>
    intro recs cur fld rest
    simp [escapeQuotes, csvStep]
  | cons c f ih =>
    intro recs cur fld rest
    by_cases hc : c = quoteChar
    · subst hc
      rw [show escapeQuotes (quoteChar :: f) = quoteChar :: quoteChar :: escapeQuotes f by
        simp [escapeQuotes]]
      simp only [List.cons_append, List.foldl_cons]
      rw [show csvStep ⟨recs, cur, fld, .quoted⟩ quoteChar
          = ⟨recs, cur, fld, .quoteEnd⟩ by simp [csvStep]]
      rw [show csvStep ⟨recs, cur, fld, .quoteEnd⟩ quoteChar
          = ⟨recs, cur, fld ++ [quoteChar], .quoted⟩ by simp [csvStep]]
      rw [ih]
      simp
    · simp only [escapeQuotes, if_neg hc, List.cons_append, List.foldl_cons]
      rw [show csvStep ⟨recs, cur, fld, .quoted⟩ c
          = ⟨recs, cur, fld ++ [c], .quoted⟩ by simp [csvStep, hc]]
      rw [ih]
      simp

lemma csv_unquoted_run : ∀ (f : List Char), (∀ c ∈ f, isCsvSpecial c = false) →
    ∀ (recs : List (List (List Char))) (cur : List (List Char)) (fld : List Char)
      (rest : List Char),
    List.foldl csvStep ⟨recs, cur, fld, .unquoted⟩ (f ++ rest)
      = List.foldl csvStep ⟨recs, cur, fld ++ f, .unquoted⟩ rest := by
  intro f
  induction f with
  | nil => intro _ recs cur fld rest; simp
  | cons c f ih =>
    intro hall recs cur fld rest
    obtain ⟨h1, h2, h3, h4⟩ := not_special_facts (hall c (List.mem_cons_self _ _))
    simp only [List.cons_append, List.foldl_cons]
    rw [show csvStep ⟨recs, cur, fld, .unquoted⟩ c
        = ⟨recs, cur, fld ++ [c], .unquoted⟩ by simp [csvStep, h1, h3, h4]]
    rw [ih (fun x hx => hall x (List.mem_cons_of_mem _ hx))]
    simp

lemma csv_field_comma : ∀ (f : List Char) (recs : List (List (List Char)))
    (cur : List (List Char)) (rest : List Char),
    List.foldl csvStep ⟨recs, cur, [], .start⟩ (encodeField f ++ ',' :: rest)
      = List.foldl csvStep ⟨recs, cur ++ [f], [], .start⟩ rest := by
  intro f recs cur rest
  cases hq : f.any isCsvSpecial with
  | true =>
    simp only [encodeField, hq, if_pos, List.cons_append, List.foldl_cons, List.append_assoc,
      List.singleton_append]
    rw [show csvStep ⟨recs, cur, [], .start⟩ quoteChar
        = ⟨recs, cur, [], .quoted⟩ by simp [csvStep, csvStepStart]]
    rw [csv_quoted_run]
    simp only [List.nil_append, List.foldl_cons]
    rw [show csvStep ⟨recs, cur, f, .quoteEnd⟩ ','
        = ⟨recs, cur ++ [f], [], .start⟩ by simp [csvStep, comma_ne_quote]]
  | false =>
    have hall : ∀ c ∈ f, isCsvSpecial c = false := by
      intro c hc
      by_contra hcon
      have : f.any isCsvSpecial = true :=
        List.any_eq_true.mpr ⟨c, hc, by revert hcon; cases isCsvSpecial c <;> simp⟩
      rw [hq] at this
      exact absurd this (by simp)
    simp only [encodeField, hq, Bool.false_eq_true, if_neg, if_false]
    cases f with
    | nil =>
      simp only [List.nil_append, List.foldl_cons]
      rw [show csvStep ⟨recs, cur, [], .start⟩ ','
          = ⟨recs, cur ++ [[]], [], .start⟩ by simp [csvStep, csvStepStart, comma_ne_quote]]
    | cons c f' =>
      obtain ⟨h1, h2, h3, h4⟩ := not_special_facts (hall c (List.mem_cons_self _ _))
      simp only [List.cons_append, List.foldl_cons]
      rw [show csvStep ⟨recs, cur, [], .start⟩ c
          = ⟨recs, cur, [c], .unquoted⟩ by simp [csvStep, csvStepStart, h1, h2, h3, h4]]
      rw [csv_unquoted_run f' (fun x hx => hall x (List.mem_cons_of_mem _ hx))]
      simp only [List.singleton_append, List.foldl_cons]
      rw [show csvStep ⟨recs, cur, c :: f', .unquoted⟩ ','
          = ⟨recs, cur ++ [c :: f'], [], .start⟩ by simp [csvStep]]

lemma csv_field_crlf : ∀ (f : List Char) (recs : List (List (List Char)))
    (cur : List (List Char)) (rest : List Char), (cur ≠ [] ∨ f ≠ []) →
    List.foldl csvStep ⟨recs, cur, [], .start⟩ (encodeField f ++ crChar :: lfChar :: rest)
      = List.foldl csvStep (csvCommit recs (cur ++ [f])) rest := by
  intro f recs cur rest hside
  cases hq : f.any isCsvSpecial with
  | true =>
    simp only [encodeField, hq, if_pos, List.cons_append, List.foldl_cons, List.append_assoc,
      List.singleton_append]
    rw [show csvStep ⟨recs, cur, [], .start⟩ quoteChar
        = ⟨recs, cur, [], .quoted⟩ by simp [csvStep, csvStepStart]]
    rw [csv_quoted_run]
    simp only [List.nil_append, List.foldl_cons]
    rw [show csvStep ⟨recs, cur, f, .quoteEnd⟩ crChar
        = ⟨recs, cur ++ [f], [], .cr⟩ by simp [csvStep, cr_ne_quote, cr_ne_comma]]
    rw [show csvStep ⟨recs, cur ++ [f], [], .cr⟩ lfChar
        = csvCommit recs (cur ++ [f]) by simp [csvStep]]
  | false =>
    have hall : ∀ c ∈ f, isCsvSpecial c = false := by
      intro c hc
      by_contra hcon
      have : f.any isCsvSpecial = true :=
        List.any_eq_true.mpr ⟨c, hc, by revert hcon; cases isCsvSpecial c <;> simp⟩
      rw [hq] at this
      exact absurd this (by simp)
    simp only [encodeField, hq, Bool.false_eq_true, if_neg, if_false]
    cases f with
    | nil =>
      have hcur : cur ≠ [] := by
        rcases hside with h | h
        · exact h
        · exact absurd rfl h
      simp only [List.nil_append, List.foldl_cons]
      rw [show csvStep ⟨recs, cur, [], .start⟩ crChar
          = ⟨recs, cur ++ [[]], [], .cr⟩ by
        simp [csvStep, csvStepStart, cr_ne_quote, cr_ne_comma, hcur]]
      rw [show csvStep ⟨recs, cur ++ [[]], [], .cr⟩ lfChar
          = csvCommit recs (cur ++ [[]]) by simp [csvStep]]
    | cons c f' =>
      obtain ⟨h1, h2, h3, h4⟩ := not_special_facts (hall c (List.mem_cons_self _ _))
      simp only [List.cons_append, List.foldl_cons]
      rw [show csvStep ⟨recs, cur, [], .start⟩ c
          = ⟨recs, cur, [c], .unquoted⟩ by simp [csvStep, csvStepStart, h1, h2, h3, h4]]
      rw [csv_unquoted_run f' (fun x hx => hall x (List.mem_cons_of_mem _ hx))]
      simp only [List.singleton_append, List.foldl_cons]
      rw [show csvStep ⟨recs, cur, c :: f', .unquoted⟩ crChar
          = ⟨recs, cur ++ [c :: f'], [], .cr⟩ by simp [csvStep, cr_ne_comma]]
      rw [show csvStep ⟨recs, cur ++ [c :: f'], [], .cr⟩ lfChar
          = csvCommit recs (cur ++ [c :: f']) by simp [csvStep]]

lemma csv_fields_run : ∀ (fs : List (List Char)), fs ≠ [] →
    ∀ (recs : List (List (List Char))) (cur : List (List Char)) (rest : List Char),
    (cur ≠ [] ∨ fs ≠ [[]]) →
    List.foldl csvStep ⟨recs, cur, [], .start⟩ (encodeFields fs ++ crChar :: lfChar :: rest)
      = List.foldl csvStep (csvCommit recs (cur ++ fs)) rest := by
  intro fs
  induction fs with
  | nil => intro h; exact absurd rfl h
  | cons f fs' ih =>
    intro _ recs cur rest hside
    cases fs' with
    | nil =>
      have hside' : cur ≠ [] ∨ f ≠ [] := by
        rcases hside with h | h
        · exact Or.inl h
        · right
          intro hf
          exact h (by rw [hf])
      simp only [encodeFields, List.isEmpty_nil, if_pos, List.append_nil]
      exact csv_field_crlf f recs cur rest hside'
    | cons f2 fs'' =>
      rw [show encodeFields (f :: f2 :: fs'')
          = encodeField f ++ ',' :: encodeFields (f2 :: fs'') by simp [encodeFields]]
      rw [List.append_assoc, List.cons_append]
      rw [csv_field_comma]
      rw [ih (by simp) recs (cur ++ [f]) rest (Or.inl (by simp))]
      simp

lemma csv_record_run : ∀ (fs : List (List Char)) (recs : List (List (List Char)))
    (rest : List Char),
    List.foldl csvStep ⟨recs, [], [], .start⟩ (encodeRecord fs ++ rest)
      = List.foldl csvStep ⟨recs ++ [fs], [], [], .start⟩ rest := by
  intro fs recs rest
  by_cases hsp : fs = [[]]
  · subst hsp
    rw [show encodeRecord [[]] = [quoteChar, quoteChar, crChar, lfChar] by simp [encodeRecord]]
    simp only [List.cons_append, List.foldl_cons, List.nil_append]
    rw [show csvStep ⟨recs, [], [], .start⟩ quoteChar
        = ⟨recs, [], [], .quoted⟩ by simp [csvStep, csvStepStart]]
    rw [show csvStep ⟨recs, [], [], .quoted⟩ quoteChar
        = ⟨recs, [], [], .quoteEnd⟩ by simp [csvStep]]
    rw [show csvStep ⟨recs, [], [], .quoteEnd⟩ crChar
        = ⟨recs, [[]], [], .cr⟩ by simp [csvStep, cr_ne_quote, cr_ne_comma]]
    rw [show csvStep ⟨recs, [[]], [], .cr⟩ lfChar
        = csvCommit recs [[]] by simp [csvStep]]
    rfl
  · by_cases hnil : fs = []
    · subst hnil
      simp only [encodeRecord, if_neg hsp, encodeFields, List.nil_append, List.cons_append,
        List.foldl_cons]
      rw [show csvStep ⟨recs, [], [], .start⟩ crChar
          = ⟨recs, [], [], .cr⟩ by simp [csvStep, csvStepStart, cr_ne_quote, cr_ne_comma]]
      rw [show csvStep ⟨recs, [], [], .cr⟩ lfChar = csvCommit recs [] by simp [csvStep]]
      rfl
    · rw [show encodeRecord fs = encodeFields fs ++ [crChar, lfChar] by
        simp [encodeRecord, hsp]]
      rw [List.append_assoc]
      rw [show ([crChar, lfChar] : List Char) ++ rest = crChar :: lfChar :: rest by rfl]
      rw [csv_fields_run fs hnil recs [] rest (Or.inr hsp)]
      rfl

lemma csv_parse_encode_aux : ∀ (records recs : List (List (List Char))),
    csvFinish (List.foldl csvStep ⟨recs, [], [], .start⟩ (encodeCsv records))
      = recs ++ records := by
  intro records
  induction records with
  | nil => intro recs; simp [encodeCsv, csvFinish]
  | cons r rs ih =>
    intro recs
    rw [show encodeCsv (r :: rs) = encodeRecord r ++ encodeCsv rs by simp [encodeCsv]]
    rw [csv_record_run, ih]
    simp

theorem csvParse_encodeCsv (records : List (List (List Char))) :
    csvParse (encodeCsv records) = records := by
  unfold csvParse
  rw [show (⟨[], [], [], .start⟩ : CsvState) = ⟨([] : List (List (List Char))), [], [], .start⟩ from rfl]
  rw [csv_parse_encode_aux]
  simp

/-! ## DictWriter and write_csv_file -/

/-- One DictWriter.writerow call: with the default extrasaction raise, a row
dict holding a key outside fieldnames raises ValueError; fieldnames missing
from the row dict are written as the empty value. -/
def dict_writer_row (fieldnames : List String) (rowdict : List (String × String)) :
    Except String (List String) :=
  if ∀ p ∈ rowdict, p.1 ∈ fieldnames then
    .ok (fieldnames.map (fun f => (dict_get rowdict f).getD ""))
  else .error "ValueError: dict contains fields not in fieldnames"

/-- The data rows written by the loop of write_csv_file: one projected row
per annotation, in input order; the first error raised aborts the write. -/
def csv_rows (db_column_names sa_component_ids : List String) :
    List Annotation → Except String (List (List String))
  | [] => .ok []
  | ann0 :: rest =>
    match find_componets_values ann0 sa_component_ids with
    | .error e => .error e
    | .ok sa_values =>
      match dict_writer_row db_column_names sa_values with
      | .error e => .error e
      | .ok row =>
        match csv_rows db_column_names sa_component_ids rest with
        | .error e => .error e
        | .ok rows => .ok (row :: rows)

/-- write_csv_file (app.py lines 118-124): writeheader writes the column
names as the first record, then one record per annotation.  The result is
the full file content as characters. -/
def write_csv_file (db_column_names : List String) (annotation_data : List Annotation)
    (sa_component_ids : List String) : Except String (List Char) :=
  match csv_rows db_column_names sa_component_ids annotation_data with
  | .error e => .error e
  | .ok rows =>
    .ok (encodeCsv (db_column_names.map String.data :: rows.map (fun r => r.map String.data)))

/-- The string that lands in a given CSV column for a given annotation. -/
def projectedField (ann : Annotation) (ids : List String) (c : String) : String :=
  if c ∈ ids then (projectedValue ann c).getD "" else ""

lemma dict_writer_row_ok (ann : Annotation) {ids columns : List String} {values : List (String × String)}
    (hv1 : ∀ cid ∈ ids, dict_get values cid = projectedValue ann cid)
    (hv2 : ∀ k, k ∉ ids → dict_get values k = none)
    (hv3 : ∀ p ∈ values, p.1 ∈ ids)
    (hsub : ∀ i ∈ ids, i ∈ columns) :
    dict_writer_row columns values = .ok (columns.map (projectedField ann ids)) := by
  unfold dict_writer_row
  rw [if_pos (fun p hp => hsub p.1 (hv3 p hp))]
  congr 1
  apply List.map_congr_left
  intro c _
  unfold projectedField
  by_cases hc : c ∈ ids
  · rw [if_pos hc, hv1 c hc]
  · rw [if_neg hc, hv2 c hc]
    rfl

lemma csv_rows_ok {ids columns : List String} : ∀ {anns : List Annotation},
    (∀ ann ∈ anns, wellFormedFor ids ann = true) →
    (∀ i ∈ ids, i ∈ columns) →
    csv_rows columns ids anns = .ok (anns.map (fun ann => columns.map (projectedField ann ids))) := by
  intro anns
  induction anns with
  | nil => intro _ _; rfl
  | cons ann rest ih =>
    intro hwf hsub
    obtain ⟨values, h1, h2, h3, h4⟩ :=
      find_componets_values_spec (hwf ann (List.mem_cons_self _ _))
    have hrow := dict_writer_row_ok ann h2 h3 h4 hsub
    have hrest := ih (fun a ha => hwf a (List.mem_cons_of_mem _ ha)) hsub
    simp only [csv_rows, h1, hrow, hrest, List.map_cons]

/-- Claim C5: CSV round trip.  For every list of annotation documents and
every column list with a corresponding component-identifier list (every
requested id appears among the columns, so no writerow raises), writing the
CSV file and reading it back yields exactly one header row equal to the
configured column list followed by one data row per annotation, in the same
order as the input annotations.  The well-formedness hypothesis rules out
the annotations on which the projection itself raises. -/
theorem write_csv_file_round_trip (columns ids : List String) (anns : List Annotation)
    (hwf : ∀ ann ∈ anns, wellFormedFor ids ann = true)
    (hsub : ∀ i ∈ ids, i ∈ columns) :
    ∃ content, write_csv_file columns anns ids = .ok content ∧
      csvParse content = columns.map String.data ::
        anns.map (fun ann => (columns.map (projectedField ann ids)).map String.data) := by
  refine ⟨encodeCsv (columns.map String.data ::
      (anns.map (fun ann => columns.map (projectedField ann ids))).map
        (fun r => r.map String.data)), ?_, ?_⟩
  · unfold write_csv_file
    rw [csv_rows_ok hwf hsub]
  · rw [csvParse_encodeCsv, List.map_map]
    rfl

/-- Witness for C5: two columns, two matching ids, one annotation. -/
theorem write_csv_file_round_trip_witness :
    ∃ content, write_csv_file ["compA", "compB"] [exampleAnn] ["compA", "compB"] = .ok content ∧
      csvParse content = ["compA", "compB"].map String.data ::
        [exampleAnn].map (fun ann =>
          (["compA", "compB"].map (projectedField ann ["compA", "compB"])).map String.data) :=
  write_csv_file_round_trip ["compA", "compB"] ["compA", "compB"] [exampleAnn]
    (by decide) (by decide)

/-! ## Claim C8: column list versus component-identifier mismatch -/

lemma firstAttrName_of_named {inst : SAInstance} (h : hasNamedFirstAttr inst = true) :
    ∃ n, firstAttrName inst = some n := by
  unfold hasNamedFirstAttr at h
  unfold firstAttrName
  cases hat : inst.attributes with
  | none => rw [hat] at h; simp at h
  | some attrs =>
    cases attrs with
    | nil => rw [hat] at h; simp at h
    | cons a arest => rw [hat] at h; exact Option.isSome_iff_exists.mp h

lemma projectedValue_isSome {ann : Annotation} {ids : List String} {i : String}
    (hwf : wellFormedFor ids ann = true) (hi : i ∈ ids) :
    ∃ v, projectedValue ann i = some v := by
  unfold projectedValue
  cases hlm : lastMatch i ann.instances with
  | none => exact ⟨"", rfl⟩
  | some inst =>
    obtain ⟨hmem, hmatch⟩ := lastMatch_mem hlm
    exact firstAttrName_of_named ((wellFormedFor_iff.mp hwf inst hmem).2 i hi hmatch)

/-- Counterexample for C8: the claim asserts that a component identifier not
present in the column list still yields a written row rather than a failure.
In fact DictWriter with the default extrasaction raises ValueError as soon
as the first row holding that key is written: with columns colA and
component id compA, the write fails. -/
theorem write_csv_file_mismatch_counterexample :
    write_csv_file ["colA"] [exampleAnn] ["compA"]
      = .error "ValueError: dict contains fields not in fieldnames" := by
  rfl

/-- Amended C8: the mismatch is silent in only one direction.  If some
requested component identifier is missing from the column list and at least
one row is written, the write raises ValueError (DictWriter extrasaction
raise); in the other direction, when every requested identifier appears
among the columns, the write succeeds with no validation, columns without a
matching identifier being silently filled with empty values. -/
theorem write_csv_file_mismatch_behaviour :
    (∀ (columns ids : List String) (ann : Annotation) (rest : List Annotation),
      wellFormedFor ids ann = true →
      (∃ i ∈ ids, i ∉ columns) →
      write_csv_file columns (ann :: rest) ids
        = .error "ValueError: dict contains fields not in fieldnames") ∧
    (∀ (columns ids : List String) (anns : List Annotation),
      (∀ ann ∈ anns, wellFormedFor ids ann = true) →
      (∀ i ∈ ids, i ∈ columns) →
      ∃ content, write_csv_file columns anns ids = .ok content) := by
  constructor
  · intro columns ids ann rest hwf hex
    obtain ⟨i, hi, hnotin⟩ := hex
    obtain ⟨values, h1, h2, _, _⟩ := find_componets_values_spec hwf
    have herr : dict_writer_row columns values
        = .error "ValueError: dict contains fields not in fieldnames" := by
      unfold dict_writer_row
      rw [if_neg]
      intro hall
      obtain ⟨v, hv⟩ := projectedValue_isSome hwf hi
      have hmemv : (i, v) ∈ values := dict_get_mem (by rw [h2 i hi, hv])
      exact hnotin (hall (i, v) hmemv)
    unfold write_csv_file
    simp only [csv_rows, h1, herr]
  · intro columns ids anns hwf hsub
    refine ⟨encodeCsv (columns.map String.data ::
      (anns.map (fun ann => columns.map (projectedField ann ids))).map
        (fun r => r.map String.data)), ?_⟩
    unfold write_csv_file
    rw [csv_rows_ok hwf hsub]

/-- Witness for the amended C8: both directions at concrete inputs. -/
theorem write_csv_file_mismatch_behaviour_witness :
    write_csv_file ["colA"] [annTwoMatches] ["compA"]
      = .error "ValueError: dict contains fields not in fieldnames" ∧
    ∃ content, write_csv_file ["compA", "colB"] [annTwoMatches] ["compA"] = .ok content :=
  ⟨write_csv_file_mismatch_behaviour.1 ["colA"] ["compA"] annTwoMatches []
      (by decide) ⟨"compA", by decide, by decide⟩,
    write_csv_file_mismatch_behaviour.2 ["compA", "colB"] ["compA"] [annTwoMatches]
      (by decide) (by decide)⟩

/-! ## Context validation and event arguments (app.py lines 40-48, 51-70, 86-96)

The event is a mapping from argument names to string values (event.get
returns none for a missing key); the context carries an items list, a
project id and a team id, each possibly absent.  Python falsiness of a
missing or empty value is modeled explicitly.  A context that is None or an
empty dict is modeled as none (both fail validation the same way).
-/

def SA_COMPONENT_IDS_ARG : String := "sa_component_ids"

def DB_COLUMN_NAMES_ARG : String := "databricks_columns"

def DB_SERVER_HOSTNAME_ARG : String := "db_server_hostname"

def DB_HTTP_PATH_ARG : String := "db_http_path"

def DB_CATALOG_ARG : String := "db_catalog"

def DB_SCHEMA_ARG : String := "db_schema"

def DB_TABLE_ARG : String := "db_table"

def DB_VOLUME_ARG : String := "db_volume"

def CREATE_DELTA_TABLE_ARG : String := "create_delta_table"

def requiredArgs : List String :=
  [SA_COMPONENT_IDS_ARG, DB_COLUMN_NAMES_ARG, DB_SERVER_HOSTNAME_ARG, DB_HTTP_PATH_ARG,
   DB_CATALOG_ARG, DB_SCHEMA_ARG, DB_TABLE_ARG, DB_VOLUME_ARG, CREATE_DELTA_TABLE_ARG]

structure Context where
  items : Option (List String)
  project_id : Option String
  team_id : Option String
deriving DecidableEq

structure SAData where
  items : List String
  project_id : String
  team_id : String
deriving DecidableEq

/-- validate_context (app.py lines 51-70): returns the validated fields, or
none (Python False) when the context, its items list, its project id or its
team id is missing or empty. -/
def validate_context (context : Option Context) : Option SAData :=
  match context with
  | none => none
  | some ctx =>
    match ctx.items with
    | none => none
    | some items =>
      if items.isEmpty then none
      else
        match ctx.project_id, ctx.team_id with
        | some project_id, some team_id =>
          if project_id = "" ∨ team_id = "" then none
          else some ⟨items, project_id, team_id⟩
        | _, _ => none

def EventMap : Type := String → Option String

/-- argument-parser (app.py lines 86-91): a missing or empty event argument
raises. -/
def argumentParser (event : EventMap) (argument : String) : Except String String :=
  match event argument with
  | none => .error ("Missing argument: " ++ argument)
  | some arg =>
    if arg = "" then .error ("Missing argument: " ++ argument) else .ok arg

/-- Python str.lower, character by character (ASCII). -/
def strToLower (s : String) : String := String.mk (s.data.map Char.toLower)

/-- Python str.split on a comma: the list of comma-free groups, one more
than the number of commas (the empty string yields one empty group). -/
def splitComma : List Char → List (List Char)
  | [] => [[]]
  | c :: cs =>
    if c = ',' then [] :: splitComma cs
    else
      match splitComma cs with
      | [] => [[c]]
      | g :: gs => (c :: g) :: gs

/-- Python str.strip: drop whitespace from both ends. -/
def trimChars (cs : List Char) : List Char :=
  ((cs.dropWhile Char.isWhitespace).reverse.dropWhile Char.isWhitespace).reverse

/-- argument_str_to_list (app.py lines 93-96): split on commas and strip
whitespace from every piece. -/
def argument_str_to_list (arg_str : String) : List String :=
  (splitComma arg_str.data).map (fun g => String.mk (trimChars g))

structure HandlerArgs where
  sa_component_ids : List String
  db_column_names : List String
  db_server_hostname : String
  db_http_path : String
  db_catalog : String
  db_schema : String
  db_table : String
  db_volume : String
  create_delta_table : Bool
deriving DecidableEq

/-- The argument block of the handler (app.py lines 177-185), in source
order; the first missing argument raises.  create_delta_table is the parsed
string lowercased and compared against true. -/
def parse_event_args (event : EventMap) : Except String HandlerArgs :=
  match argumentParser event SA_COMPONENT_IDS_ARG with
  | .error e => .error e
  | .ok s1 =>
  match argumentParser event DB_COLUMN_NAMES_ARG with
  | .error e => .error e
  | .ok s2 =>
  match argumentParser event DB_SERVER_HOSTNAME_ARG with
  | .error e => .error e
  | .ok s3 =>
  match argumentParser event DB_HTTP_PATH_ARG with
  | .error e => .error e
  | .ok s4 =>
  match argumentParser event DB_CATALOG_ARG with
  | .error e => .error e
  | .ok s5 =>
  match argumentParser event DB_SCHEMA_ARG with
  | .error e => .error e
  | .ok s6 =>
  match argumentParser event DB_TABLE_ARG with
  | .error e => .error e
  | .ok s7 =>
  match argumentParser event DB_VOLUME_ARG with
  | .error e => .error e
  | .ok s8 =>
  match argumentParser event CREATE_DELTA_TABLE_ARG with
  | .error e => .error e
  | .ok s9 =>
    .ok ⟨argument_str_to_list s1, argument_str_to_list s2, s3, s4, s5, s6, s7, s8,
      strToLower s9 == "true"⟩

/-! ## Warehouse statements and the handler pipeline (app.py lines 98-153, 161-209)

The four statements issued through db_execute are modeled as constructors
carrying their parameters; render gives the exact SQL text built by the
Python f-strings.  The black-box warehouse connection is an oracle execOk
telling which statement texts execute successfully; a failing execution
raises, aborting the pipeline at that point.  The handler returns the list
of observable effects it performed, in order, together with its outcome.
-/

inductive DbStatement where
  | put (csv_full_file_name csv_file_name db_catalog db_schema db_volume : String)
  | createTable (db_catalog db_schema db_table : String)
  | copyInto (csv_file_name db_table_name db_catalog db_schema db_volume : String)
  | removeFile (csv_file_name db_catalog db_schema db_volume : String)
deriving DecidableEq

def apos : String := String.singleton (Char.ofNat 39)

def render : DbStatement → String
  | .put full fname cat sch vol =>
    "\n        PUT " ++ apos ++ full ++ apos ++ " \n        INTO " ++ apos ++ "/Volumes/" ++ cat
      ++ "/" ++ sch ++ "/" ++ vol ++ "/superannotate/" ++ fname ++ apos
      ++ " OVERWRITE\n        "
  | .createTable cat sch table =>
    "CREATE TABLE IF NOT EXISTS " ++ cat ++ "." ++ sch ++ "." ++ table ++ ";"
  | .copyInto fname table cat sch vol =>
    "\n        COPY INTO " ++ cat ++ "." ++ sch ++ "." ++ table ++ "\n        FROM " ++ apos
      ++ "/Volumes/" ++ cat ++ "/" ++ sch ++ "/" ++ vol ++ "/superannotate/" ++ fname ++ apos
      ++ "\n        FILEFORMAT = CSV\n        FORMAT_OPTIONS (" ++ apos ++ "mergeSchema" ++ apos
      ++ " = " ++ apos ++ "true" ++ apos ++ ", " ++ apos ++ "header" ++ apos ++ " = " ++ apos ++ "true"
      ++ apos ++ ", " ++ apos ++ "multiLine" ++ apos ++ " = " ++ apos ++ "true" ++ apos
      ++ ")\n        COPY_OPTIONS (" ++ apos ++ "mergeSchema" ++ apos ++ " = " ++ apos ++ "true"
      ++ apos ++ ");\n        "
  | .removeFile fname cat sch vol =>
    "REMOVE " ++ apos ++ "/Volumes/" ++ cat ++ "/" ++ sch ++ "/" ++ vol
      ++ "/superannotate/" ++ fname ++ apos

inductive Effect where
  | errorLog (msg : String)
  | fetch (project_id : String) (items : List String)
  | connect
  | stmt (s : DbStatement)
  | disconnect
deriving DecidableEq

/-- The environment of one run: whether both token environment variables are
present, what the annotation platform returns, the strftime timestamp, the
temp directory, and which statement texts the warehouse executes without
raising. -/
structure HandlerEnv where
  env_has_tokens : Bool
  annotations : List Annotation
  timestamp : String
  temp_dir : String
  execOk : String → Bool

/-- The warehouse phase of the handler (app.py lines 199-207): PUT always,
then, only when create_delta_table holds, create table, COPY INTO and
REMOVE, then disconnect.  A failing statement raises, so nothing after it
runs; in particular db_disconnect is never reached on failure. -/
def run_statements (execOk : String → Bool) (create_delta_table : Bool)
    (putS createS copyS removeS : DbStatement) : List Effect × Except String Unit :=
  if execOk (render putS) = false then ([.stmt putS], .error "statement failed")
  else if create_delta_table then
    if execOk (render createS) = false then
      ([.stmt putS, .stmt createS], .error "statement failed")
    else if execOk (render copyS) = false then
      ([.stmt putS, .stmt createS, .stmt copyS], .error "statement failed")
    else if execOk (render removeS) = false then
      ([.stmt putS, .stmt createS, .stmt copyS, .stmt removeS], .error "statement failed")
    else
      ([.stmt putS, .stmt createS, .stmt copyS, .stmt removeS, .disconnect], .ok ())
  else ([.stmt putS, .disconnect], .ok ())

/-- handler (app.py lines 161-209).  Missing environment tokens raise before
anything else; an invalid context logs an error and returns normally; then
the nine event arguments are parsed in order; then annotations are fetched,
the CSV is written locally (raising aborts with no further effect), the
connection is opened and the warehouse phase runs. -/
def handler (env : HandlerEnv) (event : EventMap) (context : Option Context) :
    List Effect × Except String Unit :=
  if env.env_has_tokens = false then
    ([.errorLog "Missing environment variables"], .error "Missing environment variables")
  else
    match validate_context context with
    | none => ([.errorLog "Input parameters are invalid"], .ok ())
    | some sa_data =>
      match parse_event_args event with
      | .error e => ([], .error e)
      | .ok args =>
        let table_name := args.db_table ++ "_" ++ env.timestamp
        let csv_file_name := table_name ++ ".csv"
        let csv_full_file_name := env.temp_dir ++ "/" ++ csv_file_name
        match write_csv_file args.db_column_names env.annotations args.sa_component_ids with
        | .error e => ([.fetch sa_data.project_id sa_data.items], .error e)
        | .ok _ =>
          let putS := DbStatement.put csv_full_file_name csv_file_name args.db_catalog
            args.db_schema args.db_volume
          let createS := DbStatement.createTable args.db_catalog args.db_schema table_name
          let copyS := DbStatement.copyInto csv_file_name table_name args.db_catalog
            args.db_schema args.db_volume
          let removeS := DbStatement.removeFile csv_file_name args.db_catalog
            args.db_schema args.db_volume
          let res := run_statements env.execOk args.create_delta_table putS createS copyS removeS
          (.fetch sa_data.project_id sa_data.items :: .connect :: res.1, res.2)

/-- The warehouse statements issued during a run, in order. -/
def stmtsOf (tr : List Effect) : List DbStatement :=
  tr.filterMap (fun e => match e with | .stmt s => some s | _ => none)

/-! ## Handler lemmas -/

lemma parse_event_args_ok_spec (event : EventMap) (args : HandlerArgs)
    (h : parse_event_args event = .ok args) :
    ∃ s1 s2 s3 s4 s5 s6 s7 s8 s9,
      argumentParser event SA_COMPONENT_IDS_ARG = .ok s1 ∧
      argumentParser event DB_COLUMN_NAMES_ARG = .ok s2 ∧
      argumentParser event DB_SERVER_HOSTNAME_ARG = .ok s3 ∧
      argumentParser event DB_HTTP_PATH_ARG = .ok s4 ∧
      argumentParser event DB_CATALOG_ARG = .ok s5 ∧
      argumentParser event DB_SCHEMA_ARG = .ok s6 ∧
      argumentParser event DB_TABLE_ARG = .ok s7 ∧
      argumentParser event DB_VOLUME_ARG = .ok s8 ∧
      argumentParser event CREATE_DELTA_TABLE_ARG = .ok s9 ∧
      args = ⟨argument_str_to_list s1, argument_str_to_list s2, s3, s4, s5, s6, s7, s8,
        strToLower s9 == "true"⟩ := by
  unfold parse_event_args at h
  cases h1 : argumentParser event SA_COMPONENT_IDS_ARG with
  | error e => rw [h1] at h; simp at h
  | ok s1 =>
  rw [h1] at h
  cases h2 : argumentParser event DB_COLUMN_NAMES_ARG with
  | error e => rw [h2] at h; simp at h
  | ok s2 =>
  rw [h2] at h
  cases h3 : argumentParser event DB_SERVER_HOSTNAME_ARG with
  | error e => rw [h3] at h; simp at h
  | ok s3 =>
  rw [h3] at h
  cases h4 : argumentParser event DB_HTTP_PATH_ARG with
  | error e => rw [h4] at h; simp at h
  | ok s4 =>
  rw [h4] at h
  cases h5 : argumentParser event DB_CATALOG_ARG with
  | error e => rw [h5] at h; simp at h
  | ok s5 =>
  rw [h5] at h
  cases h6 : argumentParser event DB_SCHEMA_ARG with
  | error e => rw [h6] at h; simp at h
  | ok s6 =>
  rw [h6] at h
  cases h7 : argumentParser event DB_TABLE_ARG with
  | error e => rw [h7] at h; simp at h
  | ok s7 =>
  rw [h7] at h
  cases h8 : argumentParser event DB_VOLUME_ARG with
  | error e => rw [h8] at h; simp at h
  | ok s8 =>
  rw [h8] at h
  cases h9 : argumentParser event CREATE_DELTA_TABLE_ARG with
  | error e => rw [h9] at h; simp at h
  | ok s9 =>
  rw [h9] at h
  have h' : (Except.ok (⟨argument_str_to_list s1, argument_str_to_list s2, s3, s4, s5, s6,
      s7, s8, strToLower s9 == "true"⟩ : HandlerArgs) : Except String HandlerArgs)
      = .ok args := h
  refine ⟨s1, s2, s3, s4, s5, s6, s7, s8, s9, rfl, rfl, rfl, rfl, rfl, rfl, rfl, rfl, rfl, ?_⟩
  injection h' with h''
  exact h''.symm

def putStatement (env : HandlerEnv) (args : HandlerArgs) : DbStatement :=
  .put (env.temp_dir ++ "/" ++ (args.db_table ++ "_" ++ env.timestamp ++ ".csv"))
    (args.db_table ++ "_" ++ env.timestamp ++ ".csv")
    args.db_catalog args.db_schema args.db_volume

def createStatement (env : HandlerEnv) (args : HandlerArgs) : DbStatement :=
  .createTable args.db_catalog args.db_schema (args.db_table ++ "_" ++ env.timestamp)

def copyStatement (env : HandlerEnv) (args : HandlerArgs) : DbStatement :=
  .copyInto (args.db_table ++ "_" ++ env.timestamp ++ ".csv")
    (args.db_table ++ "_" ++ env.timestamp) args.db_catalog args.db_schema args.db_volume

def removeStatement (env : HandlerEnv) (args : HandlerArgs) : DbStatement :=
  .removeFile (args.db_table ++ "_" ++ env.timestamp ++ ".csv")
    args.db_catalog args.db_schema args.db_volume

def warehouseResult (env : HandlerEnv) (args : HandlerArgs) : List Effect × Except String Unit :=
  run_statements env.execOk args.create_delta_table (putStatement env args)
    (createStatement env args) (copyStatement env args) (removeStatement env args)

lemma handler_trace (env : HandlerEnv) (event : EventMap) (context : Option Context)
    (d : SAData) (args : HandlerArgs) (content : List Char)
    (henv : env.env_has_tokens = true)
    (hctx : validate_context context = some d)
    (hargs : parse_event_args event = .ok args)
    (hwrite : write_csv_file args.db_column_names env.annotations args.sa_component_ids
      = .ok content) :
    handler env event context =
      (Effect.fetch d.project_id d.items :: Effect.connect :: (warehouseResult env args).1,
        (warehouseResult env args).2) := by
  simp only [handler, henv, hctx, hargs, hwrite, warehouseResult, putStatement,
    createStatement, copyStatement, removeStatement]
  rw [if_neg (by simp : ¬(true = false))]

lemma run_statements_all_ok (execOk : String → Bool) (h : ∀ q, execOk q = true)
    (p c k r : DbStatement) :
    run_statements execOk true p c k r
      = ([.stmt p, .stmt c, .stmt k, .stmt r, .disconnect], .ok ()) := by
  unfold run_statements
  simp [h]

lemma run_statements_no_create (execOk : String → Bool) (p c k r : DbStatement) :
    stmtsOf (run_statements execOk false p c k r).1 = [p] := by
  unfold run_statements
  by_cases hp : execOk (render p) = false
  · simp [hp, stmtsOf]
  · simp [hp, stmtsOf]

/-- Claim C4: for every run that reaches the warehouse stage, when the
create_delta_table argument lowercases to true the statements issued are
exactly PUT, CREATE TABLE, COPY INTO, REMOVE in that order (given that every
statement executes without raising, since a raise aborts the tail); for any
other non-empty value only the PUT is issued, create, load and cleanup being
skipped entirely. -/
theorem handler_create_delta_table_gates (env : HandlerEnv) (event : EventMap)
    (context : Option Context) (d : SAData) (args : HandlerArgs) (v : String)
    (henv : env.env_has_tokens = true)
    (hctx : validate_context context = some d)
    (hargs : parse_event_args event = .ok args)
    (hv : event CREATE_DELTA_TABLE_ARG = some v)
    (hwrite : ∃ content, write_csv_file args.db_column_names env.annotations
      args.sa_component_ids = .ok content) :
    (strToLower v = "true" → (∀ q, env.execOk q = true) →
      stmtsOf (handler env event context).1
        = [putStatement env args, createStatement env args, copyStatement env args,
           removeStatement env args]) ∧
    (strToLower v ≠ "true" →
      stmtsOf (handler env event context).1 = [putStatement env args]) := by
  obtain ⟨content, hwc⟩ := hwrite
  have htr := handler_trace env event context d args content henv hctx hargs hwc
  obtain ⟨s1, s2, s3, s4, s5, s6, s7, s8, s9, h1, h2, h3, h4, h5, h6, h7, h8, h9, heq⟩ :=
    parse_event_args_ok_spec event args hargs
  have hs9 : s9 = v := by
    unfold argumentParser at h9
    rw [hv] at h9
    have h9' : (if v = "" then Except.error ("Missing argument: " ++ CREATE_DELTA_TABLE_ARG)
        else Except.ok v) = Except.ok s9 := h9
    by_cases hv0 : v = ""
    · rw [if_pos hv0] at h9'; simp at h9'
    · rw [if_neg hv0] at h9'; injection h9' with h9''; exact h9''.symm
  have hflag : args.create_delta_table = (strToLower v == "true") := by
    subst heq
    subst hs9
    rfl
  have hshape : stmtsOf (handler env event context).1 = stmtsOf (warehouseResult env args).1 := by
    rw [htr]
    rfl
  constructor
  · intro htrue hexec
    have hcdt : args.create_delta_table = true := by
      rw [hflag, htrue]
      simp
    rw [hshape]
    unfold warehouseResult
    rw [hcdt, run_statements_all_ok env.execOk hexec]
    rfl
  · intro hfalse
    have hcdt : args.create_delta_table = false := by
      rw [hflag]
      exact beq_eq_false_iff_ne.mpr hfalse
    rw [hshape]
    unfold warehouseResult
    rw [hcdt, run_statements_no_create]

def envOK : HandlerEnv := ⟨true, [], "20240101_000000", "/tmp", fun _ => true⟩

def dOK : SAData := ⟨["it1"], "p1", "t1"⟩

def ctxOK : Option Context := some ⟨some ["it1"], some "p1", some "t1"⟩

def eventA : EventMap := fun a => if a = CREATE_DELTA_TABLE_ARG then some "True" else some "x"

def eventB : EventMap := fun a => if a = CREATE_DELTA_TABLE_ARG then some "no" else some "x"

def argsA : HandlerArgs := ⟨["x"], ["x"], "x", "x", "x", "x", "x", "x", true⟩

def argsB : HandlerArgs := ⟨["x"], ["x"], "x", "x", "x", "x", "x", "x", false⟩

/-- Witness for C4: both gate directions at concrete inputs (the stringified
boolean True is recognized case-insensitively). -/
theorem handler_create_delta_table_gates_witness :
    stmtsOf (handler envOK eventA ctxOK).1
      = [putStatement envOK argsA, createStatement envOK argsA, copyStatement envOK argsA,
         removeStatement envOK argsA] ∧
    stmtsOf (handler envOK eventB ctxOK).1 = [putStatement envOK argsB] :=
  ⟨(handler_create_delta_table_gates envOK eventA ctxOK dOK argsA "True" rfl rfl rfl rfl
      ⟨_, rfl⟩).1 (by decide) (fun _ => rfl),
   (handler_create_delta_table_gates envOK eventB ctxOK dOK argsB "no" rfl rfl rfl rfl
      ⟨_, rfl⟩).2 (by decide)⟩

/-- Claim C6: with the environment tokens present and a valid context, an
event in which any of the nine required arguments is absent or empty makes
the handler raise and abort with an empty effect trace: in particular no
annotation fetch and no warehouse statement happens. -/
theorem handler_missing_argument_aborts (env : HandlerEnv) (event : EventMap)
    (context : Option Context) (d : SAData) (arg : String)
    (henv : env.env_has_tokens = true)
    (hctx : validate_context context = some d)
    (hmem : arg ∈ requiredArgs)
    (hmiss : event arg = none ∨ event arg = some "") :
    ∃ msg, handler env event context = ([], .error msg) := by
  have herr : argumentParser event arg = .error ("Missing argument: " ++ arg) := by
    unfold argumentParser
    rcases hmiss with h | h
    · rw [h]
    · rw [h]
      have : (match some "" with
          | none => Except.error ("Missing argument: " ++ arg)
          | some a =>
            if a = "" then Except.error ("Missing argument: " ++ arg) else Except.ok a)
          = (if ("" : String) = "" then Except.error ("Missing argument: " ++ arg)
            else Except.ok "") := rfl
      rw [this, if_pos rfl]
  cases hp : parse_event_args event with
  | error m =>
    refine ⟨m, ?_⟩
    simp only [handler, henv, hctx, hp]
    rw [if_neg (by simp : ¬(true = false))]
  | ok args =>
    exfalso
    obtain ⟨s1, s2, s3, s4, s5, s6, s7, s8, s9, h1, h2, h3, h4, h5, h6, h7, h8, h9, _⟩ :=
      parse_event_args_ok_spec event args hp
    simp only [requiredArgs, List.mem_cons, List.not_mem_nil, or_false] at hmem
    rcases hmem with rfl | rfl | rfl | rfl | rfl | rfl | rfl | rfl | rfl <;> simp_all

def eventMissing : EventMap := fun a => if a = DB_TABLE_ARG then none else some "x"

/-- Witness for C6: the event lacks db_table, so the run errors with an
empty effect trace. -/
theorem handler_missing_argument_aborts_witness :
    ∃ msg, handler envOK eventMissing ctxOK = ([], .error msg) :=
  handler_missing_argument_aborts envOK eventMissing ctxOK dOK DB_TABLE_ARG rfl rfl
    (by decide) (Or.inl rfl)

def ctxBad : Option Context := some ⟨some [], some "p1", some "t1"⟩

/-- Counterexample for C7: the claim says a context with a missing or empty
items list, project id or team id makes the run raise an error and terminate
as an uncaught failure.  With the tokens present and an empty items list the
handler instead logs an error and returns normally: the outcome is ok, not
an exception. -/
theorem handler_invalid_context_counterexample :
    handler envOK eventA ctxBad
      = ([Effect.errorLog "Input parameters are invalid"], .ok ()) := by
  rfl

/-- Amended C7: for every context that fails validation (missing or empty
items list, project id or team id, or no context at all), the handler with
tokens present logs an error and returns early without raising; its only
effect is the error log, so no annotation fetch and no remote call happens
before the early return. -/
theorem handler_invalid_context_logs_and_returns (env : HandlerEnv) (event : EventMap)
    (context : Option Context)
    (henv : env.env_has_tokens = true)
    (hctx : validate_context context = none) :
    handler env event context = ([Effect.errorLog "Input parameters are invalid"], .ok ()) := by
  simp only [handler, henv, hctx]
  rw [if_neg (by simp : ¬(true = false))]

/-- Witness for the amended C7, at a different deficient context. -/
theorem handler_invalid_context_logs_and_returns_witness :
    handler envOK eventA none = ([Effect.errorLog "Input parameters are invalid"], .ok ()) :=
  handler_invalid_context_logs_and_returns envOK eventA none rfl rfl

lemma getLast?_cons_of_getLast? {α : Type} {l : List α} {x : α} (a : α)
    (h : l.getLast? = some x) : (a :: l).getLast? = some x := by
  cases l with
  | nil => simp at h
  | cons b l' => exact h

lemma run_statements_release (execOk : String → Bool) (cdt : Bool)
    (p c k r : DbStatement) :
    ((run_statements execOk cdt p c k r).2 = .ok () →
      (run_statements execOk cdt p c k r).1.getLast? = some Effect.disconnect) ∧
    (∀ msg, (run_statements execOk cdt p c k r).2 = .error msg →
      Effect.disconnect ∉ (run_statements execOk cdt p c k r).1) := by
  unfold run_statements
  by_cases h1 : execOk (render p) = false
  · simp [h1]
  · by_cases hc : cdt
    · by_cases h2 : execOk (render c) = false
      · simp [h1, hc, h2]
      · by_cases h3 : execOk (render k) = false
        · simp [h1, hc, h2, h3]
        · by_cases h4 : execOk (render r) = false
          · simp [h1, hc, h2, h3, h4]
          · simp only [h1, hc, h2, h3, h4, if_neg, if_pos, if_false, if_true]
            constructor
            · intro _
              rfl
            · intro msg h
              simp at h
    · simp only [h1, hc, if_neg, if_false]
      constructor
      · intro _
        rfl
      · intro msg h
        simp at h

/-- Amended C9: the connection handle is released exactly at the end of runs
in which every issued statement succeeds (disconnect is the last effect);
when any statement execution fails between connect and the final disconnect,
the run aborts with an error and the connection is never closed: the
unconditional-release claim holds only for clean runs. -/
theorem handler_connection_release (env : HandlerEnv) (event : EventMap)
    (context : Option Context) :
    ((handler env event context).2 = .ok () →
      Effect.connect ∈ (handler env event context).1 →
      (handler env event context).1.getLast? = some Effect.disconnect) ∧
    (∀ msg, (handler env event context).2 = .error msg →
      Effect.disconnect ∉ (handler env event context).1) := by
  by_cases henv : env.env_has_tokens = false
  · rw [show handler env event context
        = ([.errorLog "Missing environment variables"], .error "Missing environment variables") by
      unfold handler; rw [if_pos henv]]
    constructor
    · intro h; simp at h
    · intro msg _ hmem; simp at hmem
  · have henv' : env.env_has_tokens = true := by
      revert henv; cases env.env_has_tokens <;> simp
    cases hv : validate_context context with
    | none =>
      rw [handler_invalid_context_logs_and_returns env event context henv' hv]
      constructor
      · intro _ hconn
        simp at hconn
      · intro msg h
        simp at h
    | some d =>
      cases hp : parse_event_args event with
      | error m =>
        rw [show handler env event context = ([], .error m) by
          simp only [handler, henv', hv, hp]
          rw [if_neg (by simp : ¬(true = false))]]
        constructor
        · intro h; simp at h
        · intro msg _ hmem; simp at hmem
      | ok args =>
        cases hw : write_csv_file args.db_column_names env.annotations args.sa_component_ids with
        | error e =>
          rw [show handler env event context = ([.fetch d.project_id d.items], .error e) by
            simp only [handler, henv', hv, hp, hw]
            rw [if_neg (by simp : ¬(true = false))]]
          constructor
          · intro h; simp at h
          · intro msg _ hmem; simp at hmem
        | ok content =>
          rw [handler_trace env event context d args content henv' hv hp hw]
          obtain ⟨hok, herr⟩ := run_statements_release env.execOk args.create_delta_table
            (putStatement env args) (createStatement env args) (copyStatement env args)
            (removeStatement env args)
          constructor
          · intro h _
            exact getLast?_cons_of_getLast? _ (getLast?_cons_of_getLast? _ (hok h))
          · intro msg h hmem
            simp only [List.mem_cons] at hmem
            rcases hmem with h' | h' | h'
            · exact absurd h' (by simp)
            · exact absurd h' (by simp)
            · exact herr msg h h'

def envFail : HandlerEnv := ⟨true, [], "20240101_000000", "/tmp", fun _ => false⟩

/-- Counterexample for C9: the claim says the connection is released
unconditionally, including runs in which a statement fails.  In this run the
PUT statement fails after connect: the run aborts with an error and the
trace contains connect but no disconnect, so the handle leaks. -/
theorem handler_connection_leak_counterexample :
    handler envFail eventB ctxOK
      = ([Effect.fetch "p1" ["it1"], Effect.connect, Effect.stmt (putStatement envFail argsB)],
          .error "statement failed") ∧
    Effect.disconnect ∉ [Effect.fetch "p1" ["it1"], Effect.connect,
        Effect.stmt (putStatement envFail argsB)] := by
  constructor
  · rfl
  · simp

/-- Witness for the amended C9: a clean run ends in disconnect. -/
theorem handler_connection_release_witness :
    (handler envOK eventB ctxOK).1.getLast? = some Effect.disconnect :=
  (handler_connection_release envOK eventB ctxOK).1 rfl (by decide)

/-- Claim C10: when create_delta_table is true (and the statements execute),
the table that is created and then bulk-loaded is not the configured
db_table itself but the fresh per-run name db_table, an underscore and the
run timestamp, the same base name carried by the staged CSV file; that name
always differs from db_table. -/
theorem handler_creates_timestamped_table (env : HandlerEnv) (event : EventMap)
    (context : Option Context) (d : SAData) (args : HandlerArgs) (content : List Char)
    (henv : env.env_has_tokens = true)
    (hctx : validate_context context = some d)
    (hargs : parse_event_args event = .ok args)
    (hwrite : write_csv_file args.db_column_names env.annotations args.sa_component_ids
      = .ok content)
    (hcdt : args.create_delta_table = true)
    (hexec : ∀ q, env.execOk q = true) :
    stmtsOf (handler env event context).1
      = [DbStatement.put (env.temp_dir ++ "/" ++ (args.db_table ++ "_" ++ env.timestamp ++ ".csv"))
           (args.db_table ++ "_" ++ env.timestamp ++ ".csv")
           args.db_catalog args.db_schema args.db_volume,
         DbStatement.createTable args.db_catalog args.db_schema
           (args.db_table ++ "_" ++ env.timestamp),
         DbStatement.copyInto (args.db_table ++ "_" ++ env.timestamp ++ ".csv")
           (args.db_table ++ "_" ++ env.timestamp) args.db_catalog args.db_schema args.db_volume,
         DbStatement.removeFile (args.db_table ++ "_" ++ env.timestamp ++ ".csv")
           args.db_catalog args.db_schema args.db_volume] ∧
    args.db_table ++ "_" ++ env.timestamp ≠ args.db_table := by
  constructor
  · have htr := handler_trace env event context d args content henv hctx hargs hwrite
    have hshape : stmtsOf (handler env event context).1
        = stmtsOf (warehouseResult env args).1 := by
      rw [htr]
      rfl
    rw [hshape]
    unfold warehouseResult
    rw [hcdt, run_statements_all_ok env.execOk hexec]
    rfl
  · intro hcontr
    have hlen := congrArg String.length hcontr
    simp only [String.length_append] at hlen
    have : "_".length = 1 := rfl
    omega

/-- Witness for C10: the created and loaded table is x_20240101_000000, also
the base name of the staged file x_20240101_000000.csv, and differs from the
configured table x. -/
theorem handler_creates_timestamped_table_witness :
    stmtsOf (handler envOK eventA ctxOK).1
      = [DbStatement.put
           (envOK.temp_dir ++ "/" ++ (argsA.db_table ++ "_" ++ envOK.timestamp ++ ".csv"))
           (argsA.db_table ++ "_" ++ envOK.timestamp ++ ".csv")
           argsA.db_catalog argsA.db_schema argsA.db_volume,
         DbStatement.createTable argsA.db_catalog argsA.db_schema
           (argsA.db_table ++ "_" ++ envOK.timestamp),
         DbStatement.copyInto (argsA.db_table ++ "_" ++ envOK.timestamp ++ ".csv")
           (argsA.db_table ++ "_" ++ envOK.timestamp)
           argsA.db_catalog argsA.db_schema argsA.db_volume,
         DbStatement.removeFile (argsA.db_table ++ "_" ++ envOK.timestamp ++ ".csv")
           argsA.db_catalog argsA.db_schema argsA.db_volume] ∧
    argsA.db_table ++ "_" ++ envOK.timestamp ≠ argsA.db_table :=
  handler_creates_timestamped_table envOK eventA ctxOK dOK argsA _ rfl rfl rfl rfl rfl
    (fun _ => rfl)
